import Mathlib

/-!
Verification of the grades/scores slice of edx-platform
(`lms/djangoapps/grades/scores.py` and the subsection/course grade
factories), as a shallow embedding in Lean 4.

Python numeric score values are modelled as rationals (`ℚ`); Python `None`
is modelled with `Option`; Python `assert` failures are modelled as the
`Except.error` branch of `Except String`.
-/

/-- A record from the courseware student module (CSM) attempt store, as
returned by `ScoresClient.get(location)`: both `correct` (raw earned) and
`total` (raw possible) may be `None`. -/
structure CsmScore where
  correct : Option ℚ
  total : Option ℚ
  deriving DecidableEq

/-- A persisted block record from the grades persistence layer
(`.models.BlockRecord`): `{location, weight, r_possible, graded}`. -/
structure BlockRecord where
  location : String
  weight : Option ℚ
  r_possible : ℚ
  graded : Bool
  deriving DecidableEq

/-- The live content-tree block (`block_structure.BlockData`) restricted to
the fields read by `scores.py`: its `weight` attribute (absent modelled as
`none`, matching `getattr(block, 'weight', None)`), the transformer-data
`max_score` annotation (which can be `None`), the transformer-data
explicit-graded annotation (absent modelled as `none`), the display name
and the location. -/
structure LiveBlock where
  location : String
  weight : Option ℚ
  max_score : Option ℚ
  explicit_graded : Option Bool
  display_name : String
  deriving DecidableEq

/-- The `xmodule.graders.ProblemScore` result record produced by
`get_score`. -/
structure ProblemScore where
  r_earned : Option ℚ
  r_possible : Option ℚ
  w_earned : ℚ
  w_possible : ℚ
  weight : Option ℚ
  graded : Bool
  display_name : String
  module_id : String
  deriving DecidableEq

/-- The 4-tuple `(r_earned, r_possible, w_earned, w_possible)` produced by
the three `_get_score_from_*` helpers inside `get_score`. -/
structure RawWeighted where
  r_earned : Option ℚ
  r_possible : Option ℚ
  w_earned : ℚ
  w_possible : ℚ
  deriving DecidableEq

/-- `scores._weighted_score(r_earned, r_possible, weight)`:
`assert r_possible is not None`; if `weight is None or r_possible == 0`
return `(r_earned, r_possible)` unchanged, else return
`(float(r_earned) * weight / r_possible, float(weight))`. -/
def _weighted_score (r_earned : ℚ) (r_possible : Option ℚ) (weight : Option ℚ) :
    Except String (ℚ × ℚ) :=
  match r_possible with
  | none => .error "assert r_possible is not None"
  | some rp =>
    match weight with
    | none => .ok (r_earned, rp)
    | some w => if rp = 0 then .ok (r_earned, rp) else .ok (r_earned * w / rp, w)

/-- `scores._get_score_from_submissions(submissions_scores, block)`: if the
submissions dict is non-empty and has a value for the serialized block
location, assert the submissions-API contract
`w_earned >= 0.0 and w_possible > 0.0` and return
`(None, None, w_earned, w_possible)`; else fall through (`None`). -/
def _get_score_from_submissions (submissions_scores : List (String × (ℚ × ℚ)))
    (block : LiveBlock) : Except String (Option RawWeighted) :=
  if submissions_scores.isEmpty then .ok none
  else
    match List.lookup block.location submissions_scores with
    | none => .ok none
    | some (w_earned, w_possible) =>
      if 0 ≤ w_earned ∧ 0 < w_possible then
        .ok (some ⟨none, none, w_earned, w_possible⟩)
      else .error "assert w_earned >= 0.0 and w_possible > 0.0"

/-- `scores._get_score_from_csm(csm_scores, block, weight)`: a CSM record
is used only if it exists and its `total` is not `None`
(`has_valid_score`); then `r_earned = score.correct if score.correct is
not None else 0.0`, `r_possible = score.total`, and the weighted pair is
computed by `_weighted_score`. -/
def _get_score_from_csm (csm_scores : List (String × CsmScore)) (block : LiveBlock)
    (weight : Option ℚ) : Except String (Option RawWeighted) :=
  match List.lookup block.location csm_scores with
  | none => .ok none
  | some score =>
    match score.total with
    | none => .ok none
    | some t =>
      let r_earned := score.correct.getD 0
      match _weighted_score r_earned (some t) weight with
      | .error e => .error e
      | .ok (w_earned, w_possible) =>
        .ok (some ⟨some r_earned, some t, w_earned, w_possible⟩)

/-- `scores._get_score_from_block(persisted_block, block, weight)`:
`r_earned = 0.0`; `r_possible` from `persisted_block.r_possible` when the
persisted block is present, else from the live block's transformer-data
`max_score`; weighted pair via `_weighted_score`. -/
def _get_score_from_block (persisted_block : Option BlockRecord) (block : LiveBlock)
    (weight : Option ℚ) : Except String RawWeighted :=
  let r_earned : ℚ := 0
  let r_possible : Option ℚ :=
    match persisted_block with
    | some pb => some pb.r_possible
    | none => block.max_score
  match _weighted_score r_earned r_possible weight with
  | .error e => .error e
  | .ok (w_earned, w_possible) => .ok ⟨some r_earned, r_possible, w_earned, w_possible⟩

/-- `scores._get_weight_from_block(persisted_block, block)`: the weight
from the persisted block when present, else `getattr(block, 'weight',
None)`. -/
def _get_weight_from_block (persisted_block : Option BlockRecord) (block : LiveBlock) :
    Option ℚ :=
  match persisted_block with
  | some pb => pb.weight
  | none => block.weight

/-- `scores._get_explicit_graded(block)`: the transformer-data
explicit-graded field, mapped to `True` when it is `None` (a block is
graded unless explicitly marked not-graded). -/
def _get_explicit_graded (block : LiveBlock) : Bool :=
  match block.explicit_graded with
  | none => true
  | some field_value => field_value

/-- `scores._get_graded_from_block(persisted_block, block)`: the graded
value from the persisted block when present, else the explicit-graded
resolution on the live block. -/
def _get_graded_from_block (persisted_block : Option BlockRecord) (block : LiveBlock) :
    Bool :=
  match persisted_block with
  | some pb => pb.graded
  | none => _get_explicit_graded block

/-- `scores.get_score(submissions_scores, csm_scores, persisted_block,
block)`: resolve the raw/weighted 4-tuple by trying
submissions → CSM → persisted block → live block (first result wins, via
Python `or`-chaining on the helper results), then
`graded = _get_graded_from_block(...)` if `w_possible > 0.0` else `False`,
and assemble the `ProblemScore`.  The local `weight` binding
(`_get_weight_from_block persisted_block block`) is inlined at its two use
sites. -/
def get_score (submissions_scores : List (String × (ℚ × ℚ)))
    (csm_scores : List (String × CsmScore))
    (persisted_block : Option BlockRecord) (block : LiveBlock) :
    Except String ProblemScore :=
  match
    ((match _get_score_from_submissions submissions_scores block with
      | .error e => .error e
      | .ok (some q) => .ok q
      | .ok none =>
        match _get_score_from_csm csm_scores block (_get_weight_from_block persisted_block block) with
        | .error e => .error e
        | .ok (some q) => .ok q
        | .ok none =>
          _get_score_from_block persisted_block block (_get_weight_from_block persisted_block block)) :
      Except String RawWeighted)
  with
  | .error e => .error e
  | .ok q =>
    .ok
      { r_earned := q.r_earned
        r_possible := q.r_possible
        w_earned := q.w_earned
        w_possible := q.w_possible
        weight := _get_weight_from_block persisted_block block
        graded :=
          if 0 < q.w_possible then _get_graded_from_block persisted_block block else false
        display_name := block.display_name
        module_id := block.location }

/-! ## Helper lemmas about the score-source helpers -/

theorem sub_none_of_lookup_none (ss : List (String × (ℚ × ℚ))) (blk : LiveBlock)
    (h : List.lookup blk.location ss = none) :
    _get_score_from_submissions ss blk = .ok none := by
  unfold _get_score_from_submissions
  split
  · rfl
  · rw [h]

theorem sub_some_of_lookup (ss : List (String × (ℚ × ℚ))) (blk : LiveBlock)
    (we wp : ℚ) (h : List.lookup blk.location ss = some (we, wp))
    (h1 : 0 ≤ we) (h2 : 0 < wp) :
    _get_score_from_submissions ss blk = .ok (some ⟨none, none, we, wp⟩) := by
  have hne : ¬ ss.isEmpty = true := by
    cases ss with
    | nil => simp [List.lookup] at h
    | cons a l => simp
  unfold _get_score_from_submissions
  rw [if_neg hne, h]
  simp [h1, h2]

theorem sub_ok_some_inv (ss : List (String × (ℚ × ℚ))) (blk : LiveBlock)
    (q : RawWeighted) (h : _get_score_from_submissions ss blk = .ok (some q)) :
    ∃ we wp, List.lookup blk.location ss = some (we, wp) ∧ 0 ≤ we ∧ 0 < wp ∧
      q = ⟨none, none, we, wp⟩ := by
  unfold _get_score_from_submissions at h
  split at h
  · exact absurd h (by simp)
  · split at h
    · exact absurd h (by simp)
    · rename_i we wp hL
      split at h
      · rename_i hc
        simp only [Except.ok.injEq, Option.some.injEq] at h
        exact ⟨we, wp, hL, hc.1, hc.2, h.symm⟩
      · exact absurd h (by simp)

theorem csm_none_of_invalid (cs : List (String × CsmScore)) (blk : LiveBlock)
    (w : Option ℚ)
    (h : ∀ r, List.lookup blk.location cs = some r → r.total = none) :
    _get_score_from_csm cs blk w = .ok none := by
  unfold _get_score_from_csm
  cases hL : List.lookup blk.location cs with
  | none => rfl
  | some r =>
    have ht := h r hL
    dsimp only
    rw [ht]

theorem csm_some_of_valid (cs : List (String × CsmScore)) (blk : LiveBlock)
    (w : Option ℚ) (r : CsmScore) (t we wp : ℚ)
    (hL : List.lookup blk.location cs = some r) (ht : r.total = some t)
    (hw : _weighted_score (r.correct.getD 0) (some t) w = .ok (we, wp)) :
    _get_score_from_csm cs blk w =
      .ok (some ⟨some (r.correct.getD 0), some t, we, wp⟩) := by
  unfold _get_score_from_csm
  rw [hL]
  dsimp only
  rw [ht]
  dsimp only
  rw [hw]

theorem csm_ok_some_inv (cs : List (String × CsmScore)) (blk : LiveBlock)
    (w : Option ℚ) (q : RawWeighted)
    (h : _get_score_from_csm cs blk w = .ok (some q)) :
    ∃ r t, List.lookup blk.location cs = some r ∧ r.total = some t ∧
      _weighted_score (r.correct.getD 0) (some t) w = .ok (q.w_earned, q.w_possible) ∧
      q = ⟨some (r.correct.getD 0), some t, q.w_earned, q.w_possible⟩ := by
  unfold _get_score_from_csm at h
  split at h
  · exact absurd h (by simp)
  · rename_i r hL
    split at h
    · exact absurd h (by simp)
    · rename_i t ht
      dsimp only at h
      split at h
      · exact absurd h (by simp)
      · rename_i we wp hw
        simp only [Except.ok.injEq, Option.some.injEq] at h
        subst h
        exact ⟨r, t, hL, ht, hw, rfl⟩

theorem block_quad_of (pb : Option BlockRecord) (blk : LiveBlock)
    (w : Option ℚ) (rp we wp : ℚ)
    (hrp : (match pb with | some b => some b.r_possible | none => blk.max_score) = some rp)
    (hw : _weighted_score 0 (some rp) w = .ok (we, wp)) :
    _get_score_from_block pb blk w = .ok ⟨some 0, some rp, we, wp⟩ := by
  unfold _get_score_from_block
  dsimp only
  rw [hrp, hw]

theorem block_quad_inv (pb : Option BlockRecord) (blk : LiveBlock)
    (w : Option ℚ) (q : RawWeighted)
    (h : _get_score_from_block pb blk w = .ok q) :
    ∃ rp, (match pb with | some b => some b.r_possible | none => blk.max_score) = some rp ∧
      _weighted_score 0 (some rp) w = .ok (q.w_earned, q.w_possible) ∧
      q = ⟨some 0, some rp, q.w_earned, q.w_possible⟩ := by
  unfold _get_score_from_block at h
  dsimp only at h
  cases hrp : (match pb with | some b => some b.r_possible | none => blk.max_score) with
  | none =>
    rw [hrp] at h
    exact absurd h (by simp [_weighted_score])
  | some rp =>
    rw [hrp] at h
    split at h
    · exact absurd h (by simp)
    · rename_i we wp hw
      simp only [Except.ok.injEq] at h
      subst h
      exact ⟨rp, rfl, hw, rfl⟩

theorem weighted_some_ok (e p : ℚ) (w : Option ℚ) :
    ∃ pr, _weighted_score e (some p) w = .ok pr := by
  unfold _weighted_score
  cases w with
  | none => exact ⟨(e, p), rfl⟩
  | some w' =>
    by_cases hp : p = 0
    · exact ⟨(e, p), by simp [hp]⟩
    · exact ⟨(e * w' / p, w'), by simp [hp]⟩

/-! ## Composition and inversion lemmas for `get_score` -/

theorem get_score_ok_of_sub (ss : List (String × (ℚ × ℚ))) (cs : List (String × CsmScore))
    (pb : Option BlockRecord) (blk : LiveBlock) (q : RawWeighted)
    (hsub : _get_score_from_submissions ss blk = .ok (some q)) :
    get_score ss cs pb blk = .ok
      { r_earned := q.r_earned, r_possible := q.r_possible, w_earned := q.w_earned,
        w_possible := q.w_possible, weight := _get_weight_from_block pb blk,
        graded := if 0 < q.w_possible then _get_graded_from_block pb blk else false,
        display_name := blk.display_name, module_id := blk.location } := by
  unfold get_score
  rw [hsub]

theorem get_score_ok_of_csm (ss : List (String × (ℚ × ℚ))) (cs : List (String × CsmScore))
    (pb : Option BlockRecord) (blk : LiveBlock) (q : RawWeighted)
    (hsub : _get_score_from_submissions ss blk = .ok none)
    (hcsm : _get_score_from_csm cs blk (_get_weight_from_block pb blk) = .ok (some q)) :
    get_score ss cs pb blk = .ok
      { r_earned := q.r_earned, r_possible := q.r_possible, w_earned := q.w_earned,
        w_possible := q.w_possible, weight := _get_weight_from_block pb blk,
        graded := if 0 < q.w_possible then _get_graded_from_block pb blk else false,
        display_name := blk.display_name, module_id := blk.location } := by
  unfold get_score
  rw [hsub]
  dsimp only
  rw [hcsm]

theorem get_score_ok_of_block (ss : List (String × (ℚ × ℚ))) (cs : List (String × CsmScore))
    (pb : Option BlockRecord) (blk : LiveBlock) (q : RawWeighted)
    (hsub : _get_score_from_submissions ss blk = .ok none)
    (hcsm : _get_score_from_csm cs blk (_get_weight_from_block pb blk) = .ok none)
    (hblk : _get_score_from_block pb blk (_get_weight_from_block pb blk) = .ok q) :
    get_score ss cs pb blk = .ok
      { r_earned := q.r_earned, r_possible := q.r_possible, w_earned := q.w_earned,
        w_possible := q.w_possible, weight := _get_weight_from_block pb blk,
        graded := if 0 < q.w_possible then _get_graded_from_block pb blk else false,
        display_name := blk.display_name, module_id := blk.location } := by
  unfold get_score
  rw [hsub]
  dsimp only
  rw [hcsm]
  dsimp only
  rw [hblk]

theorem get_score_ok_inv (ss : List (String × (ℚ × ℚ))) (cs : List (String × CsmScore))
    (pb : Option BlockRecord) (blk : LiveBlock) (s : ProblemScore)
    (h : get_score ss cs pb blk = .ok s) :
    ∃ q : RawWeighted,
      s = { r_earned := q.r_earned, r_possible := q.r_possible, w_earned := q.w_earned,
            w_possible := q.w_possible, weight := _get_weight_from_block pb blk,
            graded := if 0 < q.w_possible then _get_graded_from_block pb blk else false,
            display_name := blk.display_name, module_id := blk.location } ∧
      (_get_score_from_submissions ss blk = .ok (some q) ∨
       (_get_score_from_submissions ss blk = .ok none ∧
        _get_score_from_csm cs blk (_get_weight_from_block pb blk) = .ok (some q)) ∨
       (_get_score_from_submissions ss blk = .ok none ∧
        _get_score_from_csm cs blk (_get_weight_from_block pb blk) = .ok none ∧
        _get_score_from_block pb blk (_get_weight_from_block pb blk) = .ok q)) := by
  unfold get_score at h
  split at h
  · exact absurd h (by simp)
  · rename_i q hq
    refine ⟨q, ?_, ?_⟩
    · simp only [Except.ok.injEq] at h
      exact h.symm
    · split at hq
      · exact absurd hq (by simp)
      · rename_i q' hsub
        simp only [Except.ok.injEq] at hq
        subst hq
        exact Or.inl hsub
      · rename_i hsub
        split at hq
        · exact absurd hq (by simp)
        · rename_i q' hcsm
          simp only [Except.ok.injEq] at hq
          subst hq
          exact Or.inr (Or.inl ⟨hsub, hcsm⟩)
        · rename_i hcsm
          exact Or.inr (Or.inr ⟨hsub, hcsm, hq⟩)

/-! ## Claim theorems -/

/-- C1: `get_score` takes the raw/weighted earned-possible pair from the
first source present in the fixed order
submissions > attempt-store (CSM) > persisted-block > live-block: a
submissions value for the block's location wins outright; else a CSM
record with a defined `total` wins; else `raw_earned = 0.0` and
`raw_possible` comes from the persisted block when present, else from the
live block's `max_score` annotation. -/
theorem get_score_precedence (ss : List (String × (ℚ × ℚ)))
    (cs : List (String × CsmScore)) (pb : Option BlockRecord) (blk : LiveBlock) :
    (∀ we wp : ℚ, List.lookup blk.location ss = some (we, wp) → 0 ≤ we → 0 < wp →
      ∃ s, get_score ss cs pb blk = .ok s ∧
        s.r_earned = none ∧ s.r_possible = none ∧ s.w_earned = we ∧ s.w_possible = wp) ∧
    (List.lookup blk.location ss = none →
      ∀ (r : CsmScore) (t : ℚ), List.lookup blk.location cs = some r → r.total = some t →
      ∃ s, get_score ss cs pb blk = .ok s ∧
        s.r_earned = some (r.correct.getD 0) ∧ s.r_possible = some t ∧
        _weighted_score (r.correct.getD 0) (some t) (_get_weight_from_block pb blk) =
          .ok (s.w_earned, s.w_possible)) ∧
    (List.lookup blk.location ss = none →
      (∀ r : CsmScore, List.lookup blk.location cs = some r → r.total = none) →
      ∀ b : BlockRecord, pb = some b →
      ∃ s, get_score ss cs pb blk = .ok s ∧
        s.r_earned = some 0 ∧ s.r_possible = some b.r_possible ∧
        _weighted_score 0 (some b.r_possible) (_get_weight_from_block pb blk) =
          .ok (s.w_earned, s.w_possible)) ∧
    (List.lookup blk.location ss = none →
      (∀ r : CsmScore, List.lookup blk.location cs = some r → r.total = none) →
      pb = none →
      ∀ m : ℚ, blk.max_score = some m →
      ∃ s, get_score ss cs pb blk = .ok s ∧
        s.r_earned = some 0 ∧ s.r_possible = some m ∧
        _weighted_score 0 (some m) (_get_weight_from_block pb blk) =
          .ok (s.w_earned, s.w_possible)) := by
  refine ⟨?_, ?_, ?_, ?_⟩
  · intro we wp hL h1 h2
    have hsub := sub_some_of_lookup ss blk we wp hL h1 h2
    exact ⟨_, get_score_ok_of_sub ss cs pb blk ⟨none, none, we, wp⟩ hsub,
      rfl, rfl, rfl, rfl⟩
  · intro hS r t hL ht
    have hsub := sub_none_of_lookup_none ss blk hS
    obtain ⟨⟨we, wp⟩, hw⟩ :=
      weighted_some_ok (r.correct.getD 0) t (_get_weight_from_block pb blk)
    have hcsm := csm_some_of_valid cs blk (_get_weight_from_block pb blk) r t we wp hL ht hw
    exact ⟨_, get_score_ok_of_csm ss cs pb blk ⟨some (r.correct.getD 0), some t, we, wp⟩
      hsub hcsm, rfl, rfl, hw⟩
  · intro hS hC b hpb
    subst hpb
    have hsub := sub_none_of_lookup_none ss blk hS
    have hcsm := csm_none_of_invalid cs blk (_get_weight_from_block (some b) blk) hC
    obtain ⟨⟨we, wp⟩, hw⟩ :=
      weighted_some_ok 0 b.r_possible (_get_weight_from_block (some b) blk)
    have hblk := block_quad_of (some b) blk (_get_weight_from_block (some b) blk)
      b.r_possible we wp rfl hw
    exact ⟨_, get_score_ok_of_block ss cs (some b) blk ⟨some 0, some b.r_possible, we, wp⟩
      hsub hcsm hblk, rfl, rfl, hw⟩
  · intro hS hC hpb m hm
    subst hpb
    have hsub := sub_none_of_lookup_none ss blk hS
    have hcsm := csm_none_of_invalid cs blk (_get_weight_from_block none blk) hC
    obtain ⟨⟨we, wp⟩, hw⟩ := weighted_some_ok 0 m (_get_weight_from_block none blk)
    have hblk := block_quad_of none blk (_get_weight_from_block none blk) m we wp hm hw
    exact ⟨_, get_score_ok_of_block ss cs none blk ⟨some 0, some m, we, wp⟩
      hsub hcsm hblk, rfl, rfl, hw⟩

/-- Concrete live block mirroring `TestGetScore`'s `ContentBlockValue`. -/
def test_block : LiveBlock :=
  ⟨"test_location", some 20, some 1, some false, "test_name"⟩

/-- Concrete persisted block record mirroring `TestGetScore`'s
`PersistedBlockValue(r_possible=5, weight=40, graded=True)`. -/
def test_persisted : BlockRecord := ⟨"test_location", some 40, 5, true⟩

/-- Concrete submissions store mirroring `TestGetScore`'s
`SubmissionValue(w_earned=50, w_possible=100)`. -/
def test_submissions : List (String × (ℚ × ℚ)) := [("test_location", (50, 100))]

/-- Concrete CSM store mirroring `TestGetScore`'s
`CSMValue(r_earned=10, r_possible=40)`. -/
def test_csm : List (String × CsmScore) := [("test_location", ⟨some 10, some 40⟩)]

/-- C1 witness: on the repository's own test fixture, the submissions
source wins and supplies the weighted pair `(50, 100)`. -/
theorem get_score_precedence_witness :
    ∃ s, get_score test_submissions test_csm (some test_persisted) test_block = .ok s ∧
      s.r_earned = none ∧ s.r_possible = none ∧ s.w_earned = 50 ∧ s.w_possible = 100 :=
  (get_score_precedence test_submissions test_csm (some test_persisted) test_block).1
    50 100 (by decide) (by norm_num) (by norm_num)

/-- C2: `_weighted_score` fails its assertion on an undefined
`raw_possible`; returns `(raw_earned, raw_possible)` unchanged when the
weight is undefined or `raw_possible = 0`; otherwise rescales to
`(raw_earned * weight / raw_possible, weight)`; and on the repository's
concrete examples: `weighted(2,5,1) = (0.4,1)`, `weighted(5,5,3) = (3,3)`,
`weighted(2,4,6) = (3,6)`. -/
theorem weighted_score_spec :
    (∀ (r_earned : ℚ) (weight : Option ℚ), ∃ msg,
      _weighted_score r_earned none weight = .error msg) ∧
    (∀ r_earned r_possible : ℚ,
      _weighted_score r_earned (some r_possible) none = .ok (r_earned, r_possible)) ∧
    (∀ r_earned w : ℚ, _weighted_score r_earned (some 0) (some w) = .ok (r_earned, 0)) ∧
    (∀ r_earned r_possible w : ℚ, r_possible ≠ 0 →
      _weighted_score r_earned (some r_possible) (some w) =
        .ok (r_earned * w / r_possible, w)) ∧
    _weighted_score 2 (some 5) (some 1) = .ok (2/5, 1) ∧
    _weighted_score 5 (some 5) (some 3) = .ok (3, 3) ∧
    _weighted_score 2 (some 4) (some 6) = .ok (3, 6) := by
  refine ⟨fun e w => ⟨_, rfl⟩, fun e p => rfl, fun e w => by simp [_weighted_score],
    fun e p w hp => by simp [_weighted_score, hp], ?_, ?_, ?_⟩ <;>
    norm_num [_weighted_score]

/-- C2 witness: the rescaling branch of `weighted_score_spec` applied at
the concrete non-zero denominator 6. -/
theorem weighted_score_spec_witness :
    _weighted_score 3 (some 6) (some 2) = .ok (1, 2) := by
  have h := weighted_score_spec.2.2.2.1 3 6 2 (by norm_num)
  rw [h]
  norm_num

/-- Weighting by an explicit zero weight with a non-zero denominator
collapses the weighted pair to `(0, 0)`. -/
theorem weighted_zero_weight (e t : ℚ) (ht : t ≠ 0) :
    _weighted_score e (some t) (some 0) = .ok (0, 0) := by
  simp [_weighted_score, ht]

/-- C3: the `graded` flag of the resolved score is `False` whenever the
resolved `w_possible` is not strictly positive; otherwise it equals the
persisted block's `graded` when a persisted block is present, and
otherwise the live block's explicit-graded annotation with `True` as the
default for an undefined annotation. -/
theorem graded_flag_spec (ss : List (String × (ℚ × ℚ))) (cs : List (String × CsmScore))
    (pb : Option BlockRecord) (blk : LiveBlock) (s : ProblemScore)
    (hok : get_score ss cs pb blk = .ok s) :
    (s.w_possible ≤ 0 → s.graded = false) ∧
    (0 < s.w_possible →
      (∀ b : BlockRecord, pb = some b → s.graded = b.graded) ∧
      (pb = none → s.graded = blk.explicit_graded.getD true)) := by
  obtain ⟨q, hs, -⟩ := get_score_ok_inv ss cs pb blk s hok
  subst hs
  dsimp only
  constructor
  · intro hle
    rw [if_neg (not_lt.mpr hle)]
  · intro hlt
    rw [if_pos hlt]
    constructor
    · intro b hb
      subst hb
      rfl
    · intro hb
      subst hb
      cases hE : blk.explicit_graded <;>
        simp [_get_graded_from_block, _get_explicit_graded, hE]

/-- C3 witness: with no persisted block and an explicitly-`False` graded
annotation, a positive `w_possible` yields `graded = False` from the live
annotation. -/
theorem graded_flag_spec_witness :
    ∃ s, get_score [] [] none test_block = .ok s ∧ s.graded = false := by
  have hwx : _weighted_score 0 (some 1) (some 20) = .ok (0, 20) := by
    norm_num [_weighted_score]
  have hok := get_score_ok_of_block [] [] none test_block ⟨some 0, some 1, 0, 20⟩
    (sub_none_of_lookup_none [] test_block rfl)
    (csm_none_of_invalid [] test_block _ (by intro r hr; cases hr))
    (block_quad_of none test_block _ 1 0 20 rfl hwx)
  have h := graded_flag_spec [] [] none test_block _ hok
  exact ⟨_, hok, ((h.2 (by norm_num)).2 rfl).trans rfl⟩

/-- C10: when the submissions source does not decide the score (so the
weighting function is applied), a resolved weight of exactly 0 together
with a non-zero raw denominator collapses the weighted pair to
`(0.0, 0.0)` and forces `graded = False`, regardless of the earned value,
the explicit-graded annotation, and any persisted `graded=True` flag. -/
theorem zero_weight_forces_ungraded (ss : List (String × (ℚ × ℚ)))
    (cs : List (String × CsmScore)) (pb : Option BlockRecord) (blk : LiveBlock)
    (s : ProblemScore)
    (hok : get_score ss cs pb blk = .ok s)
    (hsub : List.lookup blk.location ss = none)
    (hw : _get_weight_from_block pb blk = some 0)
    (hrp : ∀ rp : ℚ, s.r_possible = some rp → rp ≠ 0) :
    s.w_earned = 0 ∧ s.w_possible = 0 ∧ s.graded = false := by
  obtain ⟨q, hs, hcase⟩ := get_score_ok_inv ss cs pb blk s hok
  subst hs
  rcases hcase with hsubq | ⟨-, hcsm⟩ | ⟨-, -, hblk⟩
  · obtain ⟨we, wp, hL, -, -, -⟩ := sub_ok_some_inv ss blk q hsubq
    rw [hsub] at hL
    exact absurd hL (by simp)
  · obtain ⟨r, t, hL, ht, hwq, hq⟩ := csm_ok_some_inv cs blk _ q hcsm
    rw [hw] at hwq
    have hqrp : q.r_possible = some t := by rw [hq]
    have htne : t ≠ 0 := hrp t hqrp
    rw [weighted_zero_weight (r.correct.getD 0) t htne] at hwq
    simp only [Except.ok.injEq, Prod.mk.injEq] at hwq
    refine ⟨hwq.1.symm, hwq.2.symm, ?_⟩
    dsimp only
    rw [if_neg (by rw [← hwq.2]; norm_num)]
  · obtain ⟨rp, hrpdef, hwq, hq⟩ := block_quad_inv pb blk _ q hblk
    rw [hw] at hwq
    have hqrp : q.r_possible = some rp := by rw [hq]
    have hne : rp ≠ 0 := hrp rp hqrp
    rw [weighted_zero_weight 0 rp hne] at hwq
    simp only [Except.ok.injEq, Prod.mk.injEq] at hwq
    refine ⟨hwq.1.symm, hwq.2.symm, ?_⟩
    dsimp only
    rw [if_neg (by rw [← hwq.2]; norm_num)]

/-- Concrete live block with an explicit weight of 0, a non-zero
`max_score`, and an explicitly-`True` graded annotation. -/
def zero_weight_block : LiveBlock :=
  ⟨"zero_weight_location", some 0, some 4, some true, "zero_weight_name"⟩

/-- C10 witness: with weight 0 and `max_score = 4`, the weighted pair is
`(0, 0)` and `graded = False` despite the explicitly-`True` annotation. -/
theorem zero_weight_forces_ungraded_witness :
    ∃ s, get_score [] [] none zero_weight_block = .ok s ∧
      s.w_earned = 0 ∧ s.w_possible = 0 ∧ s.graded = false := by
  have hwx : _weighted_score 0 (some 4) (some 0) = .ok (0, 0) :=
    weighted_zero_weight 0 4 (by norm_num)
  have hok := get_score_ok_of_block [] [] none zero_weight_block ⟨some 0, some 4, 0, 0⟩
    (sub_none_of_lookup_none [] zero_weight_block rfl)
    (csm_none_of_invalid [] zero_weight_block _ (by intro r hr; cases hr))
    (block_quad_of none zero_weight_block _ 4 0 0 rfl hwx)
  have h := zero_weight_forces_ungraded [] [] none zero_weight_block _ hok rfl rfl
    (by intro rp hrp; simp only [Option.some.injEq] at hrp; rw [← hrp]; norm_num)
  exact ⟨_, hok, h⟩

/-- Persisted block with `graded=True` but `r_possible=0` and no weight:
its resolved weighted denominator is 0. -/
def degenerate_persisted : BlockRecord := ⟨"test_location", none, 0, true⟩

/-- C4 counterexample: with the persisted block
`{weight: None, r_possible: 0, graded: True}` present and no earlier
source, the resolved `graded` flag is `False`, not the persisted block's
`True` — the claim that the graded flag is always taken from the persisted
block when one is present is refuted. -/
theorem graded_not_from_persisted_counterexample :
    Except.map ProblemScore.graded (get_score [] [] (some degenerate_persisted) test_block) =
      .ok false ∧
    degenerate_persisted.graded = true := by
  have hwx : _weighted_score 0 (some 0)
      (_get_weight_from_block (some degenerate_persisted) test_block) = .ok (0, 0) := rfl
  have hok := get_score_ok_of_block [] [] (some degenerate_persisted) test_block
    ⟨some 0, some 0, 0, 0⟩
    (sub_none_of_lookup_none [] test_block rfl)
    (csm_none_of_invalid [] test_block _ (by intro r hr; cases hr))
    (block_quad_of (some degenerate_persisted) test_block _ 0 0 0 rfl hwx)
  rw [hok]
  refine ⟨?_, rfl⟩
  simp only [Except.map]
  rw [if_neg (lt_irrefl (0 : ℚ))]

/-- C4 amended: the `weight` field of the resolved score is always taken
from the persisted block when one is present and from the live block only
otherwise, independent of which source supplied the earned/possible
values; the `graded` flag is resolved the same persisted-first way
whenever the resolved `w_possible` is strictly positive, and is `False`
(taken from neither block) when `w_possible` is not positive. -/
theorem weight_graded_resolution_amended (ss : List (String × (ℚ × ℚ)))
    (cs : List (String × CsmScore)) (pb : Option BlockRecord) (blk : LiveBlock)
    (s : ProblemScore) (hok : get_score ss cs pb blk = .ok s) :
    s.weight = _get_weight_from_block pb blk ∧
    (∀ b : BlockRecord, pb = some b → s.weight = b.weight) ∧
    (pb = none → s.weight = blk.weight) ∧
    (0 < s.w_possible → s.graded = _get_graded_from_block pb blk) ∧
    (s.w_possible ≤ 0 → s.graded = false) := by
  obtain ⟨q, hs, -⟩ := get_score_ok_inv ss cs pb blk s hok
  subst hs
  dsimp only
  refine ⟨rfl, ?_, ?_, ?_, ?_⟩
  · intro b hb
    subst hb
    rfl
  · intro hb
    subst hb
    rfl
  · intro hlt
    rw [if_pos hlt]
  · intro hle
    rw [if_neg (not_lt.mpr hle)]

/-- C4-amended witness: on the repository fixture where the submissions
source wins, weight and graded still come from the persisted block
(`weight=40`, `graded=True`), not from the live block (`weight=20`,
explicit graded `False`). -/
theorem weight_graded_resolution_amended_witness :
    ∃ s, get_score test_submissions test_csm (some test_persisted) test_block = .ok s ∧
      s.weight = some 40 ∧ s.graded = true := by
  have hsub := sub_some_of_lookup test_submissions test_block 50 100 (by decide)
    (by norm_num) (by norm_num)
  have hok := get_score_ok_of_sub test_submissions test_csm (some test_persisted)
    test_block ⟨none, none, 50, 100⟩ hsub
  have h := weight_graded_resolution_amended test_submissions test_csm
    (some test_persisted) test_block _ hok
  exact ⟨_, hok, (h.2.1 test_persisted rfl).trans rfl,
    (h.2.2.2.1 (by norm_num)).trans rfl⟩

/-- If the submissions helper falls through, the submissions mapping has no
value for the block's location. -/
theorem sub_ok_none_inv (ss : List (String × (ℚ × ℚ))) (blk : LiveBlock)
    (h : _get_score_from_submissions ss blk = .ok none) :
    List.lookup blk.location ss = none := by
  unfold _get_score_from_submissions at h
  split at h
  · rename_i he
    rw [List.isEmpty_iff] at he
    subst he
    rfl
  · split at h
    · rename_i hL
      exact hL
    · split at h
      · exact absurd h (by simp)
      · exact absurd h (by simp)

/-- The weighted denominator produced by `_weighted_score` is non-negative
whenever the raw denominator and the weight (when defined) are. -/
theorem weighted_wp_nonneg (e p : ℚ) (w : Option ℚ) (we wp : ℚ)
    (h : _weighted_score e (some p) w = .ok (we, wp))
    (hp : 0 ≤ p) (hw : ∀ w', w = some w' → 0 ≤ w') : 0 ≤ wp := by
  cases w with
  | none =>
    unfold _weighted_score at h
    dsimp only at h
    simp only [Except.ok.injEq, Prod.mk.injEq] at h
    rw [← h.2]
    exact hp
  | some w' =>
    unfold _weighted_score at h
    dsimp only at h
    split at h <;> simp only [Except.ok.injEq, Prod.mk.injEq] at h <;> rw [← h.2]
    · exact hp
    · exact hw w' rfl

/-- CSM store holding a record with a negative `total`, violating no
stated contract of the spec's data model. -/
def negative_total_csm : List (String × CsmScore) :=
  [("neg_location", ⟨some 1, some (-1)⟩)]

/-- Live block for the negative-total scenario: no weight attribute, so
the weighting function passes the raw denominator through unchanged. -/
def negative_total_block : LiveBlock := ⟨"neg_location", none, some 1, none, "neg_name"⟩

/-- C5 counterexample: with no submissions value and a CSM record whose
`total` is -1 (a value no stated source contract excludes), `get_score`
returns a score whose `w_possible` is -1, refuting the claim that
`weighted_possible` is always non-negative under the stated contracts. -/
theorem w_possible_negative_counterexample :
    Except.map ProblemScore.w_possible (get_score [] negative_total_csm none negative_total_block) =
      .ok (-1) ∧ (-1 : ℚ) < 0 := by
  have hw : _weighted_score ((⟨some 1, some (-1)⟩ : CsmScore).correct.getD 0) (some (-1))
      (_get_weight_from_block none negative_total_block) = .ok (1, -1) := rfl
  have hcsm := csm_some_of_valid negative_total_csm negative_total_block
    (_get_weight_from_block none negative_total_block) ⟨some 1, some (-1)⟩ (-1) 1 (-1)
    (by decide) rfl hw
  have hok := get_score_ok_of_csm [] negative_total_csm none negative_total_block
    ⟨some 1, some (-1), 1, -1⟩
    (sub_none_of_lookup_none [] negative_total_block rfl) hcsm
  rw [hok]
  exact ⟨rfl, by norm_num⟩

/-- C5 amended: for every `ProblemScore` returned by `get_score`,
`w_possible` is defined, and `r_earned`/`r_possible` are undefined exactly
when the submissions source supplied the score; `w_possible` is
non-negative under the stated submissions contract PLUS the additional
contracts (absent from the spec) that the attempt-store `total`, the
persisted `r_possible`, the live `max_score` and the resolved weight are
non-negative whenever present. -/
theorem get_score_safety_amended (ss : List (String × (ℚ × ℚ)))
    (cs : List (String × CsmScore)) (pb : Option BlockRecord) (blk : LiveBlock)
    (s : ProblemScore)
    (hok : get_score ss cs pb blk = .ok s)
    (htot : ∀ r : CsmScore, List.lookup blk.location cs = some r →
      ∀ t : ℚ, r.total = some t → 0 ≤ t)
    (hpb : ∀ b : BlockRecord, pb = some b → 0 ≤ b.r_possible)
    (hms : ∀ m : ℚ, blk.max_score = some m → 0 ≤ m)
    (hwn : ∀ w : ℚ, _get_weight_from_block pb blk = some w → 0 ≤ w) :
    0 ≤ s.w_possible ∧
    ((s.r_earned = none ∧ s.r_possible = none) ↔ (List.lookup blk.location ss).isSome) := by
  obtain ⟨q, hs, hcase⟩ := get_score_ok_inv ss cs pb blk s hok
  subst hs
  rcases hcase with hsubq | ⟨hsub, hcsm⟩ | ⟨hsub, -, hblk⟩
  · obtain ⟨we, wp, hL, -, h2, hq⟩ := sub_ok_some_inv ss blk q hsubq
    subst hq
    constructor
    · exact le_of_lt h2
    · simp [hL]
  · obtain ⟨r, t, hL, ht, hwq, hq⟩ := csm_ok_some_inv cs blk _ q hcsm
    constructor
    · exact weighted_wp_nonneg (r.correct.getD 0) t _ q.w_earned q.w_possible hwq
        (htot r hL t ht) (fun w' hw' => hwn w' hw')
    · rw [sub_ok_none_inv ss blk hsub]
      rw [hq]
      simp
  · obtain ⟨rp, hrpdef, hwq, hq⟩ := block_quad_inv pb blk _ q hblk
    constructor
    · refine weighted_wp_nonneg 0 rp _ q.w_earned q.w_possible hwq ?_
        (fun w' hw' => hwn w' hw')
      cases pb with
      | some b =>
        simp only [Option.some.injEq] at hrpdef
        rw [← hrpdef]
        exact hpb b rfl
      | none => exact hms rp hrpdef
    · rw [sub_ok_none_inv ss blk hsub]
      rw [hq]
      simp

/-- C5-amended witness: with no submissions value, a CSM record
`{correct: 10, total: 40}` and persisted weight 40, the returned score has
`w_possible = 40 ≥ 0` and defined raw fields, matching the amended safety
statement at a concrete input. -/
theorem get_score_safety_amended_witness :
    ∃ s, get_score [] test_csm (some test_persisted) test_block = .ok s ∧
      0 ≤ s.w_possible ∧
      ((s.r_earned = none ∧ s.r_possible = none) ↔
        (List.lookup test_block.location ([] : List (String × (ℚ × ℚ)))).isSome) := by
  have hw40 : _weighted_score ((⟨some 10, some 40⟩ : CsmScore).correct.getD 0) (some 40)
      (_get_weight_from_block (some test_persisted) test_block) = .ok (10, 40) := by
    show _weighted_score 10 (some 40) (some 40) = .ok (10, 40)
    norm_num [_weighted_score]
  have hcsm := csm_some_of_valid test_csm test_block
    (_get_weight_from_block (some test_persisted) test_block)
    ⟨some 10, some 40⟩ 40 10 40 (by decide) rfl hw40
  have hok := get_score_ok_of_csm [] test_csm (some test_persisted) test_block
    ⟨some 10, some 40, 10, 40⟩ (sub_none_of_lookup_none [] test_block rfl) hcsm
  have h := get_score_safety_amended [] test_csm (some test_persisted) test_block _ hok
    (by
      intro r hr t ht
      have h0 : List.lookup test_block.location test_csm =
          some (⟨some 10, some 40⟩ : CsmScore) := by decide
      rw [h0, Option.some.injEq] at hr
      subst hr
      simp only [Option.some.injEq] at ht
      rw [← ht]
      norm_num)
    (by
      intro b hb
      simp only [Option.some.injEq] at hb
      rw [← hb]
      norm_num [test_persisted])
    (by
      intro m hm
      injection hm with h1
      rw [← h1]
      norm_num)
    (by
      intro w hw
      injection hw with h1
      rw [← h1]
      norm_num)
  exact ⟨_, hok, h⟩

/-! ## Scored-block classifier (`possibly_scored`) -/

/-- An entry of the XBlock registry as yielded by `XBlock.load_classes()`:
a `(category, xblock_class)` pair with the class reduced to the two
capability flags read by the classifier
(`getattr(xblock_class, 'has_score', False)` and
`getattr(xblock_class, 'has_children', False)`; an absent attribute is the
default `False`). -/
structure XBlockClassDecl where
  category : String
  has_score : Bool
  has_children : Bool
  deriving DecidableEq

/-- The body of `scores._block_types_possibly_scored()` over an explicit
registry: the categories whose class declares `has_score` or
`has_children` (the frozenset, modelled as the list of such categories). -/
def _block_types_possibly_scored (registry : List XBlockClassDecl) : List String :=
  (registry.filter (fun c => c.has_score || c.has_children)).map (fun c => c.category)

/-- `scores.possibly_scored(usage_key)`: membership of the usage key's
block type in `_block_types_possibly_scored()`. -/
def possibly_scored (registry : List XBlockClassDecl) (block_type : String) : Bool :=
  (_block_types_possibly_scored registry).contains block_type

/-- The `@memoized` decorator on `_block_types_possibly_scored`: a call
reads the process-wide cache; on a miss the set is computed from the
registry and stored, on a hit the cached set is returned untouched. -/
def memoized_call (cache : Option (List String)) (registry : List XBlockClassDecl) :
    List String × Option (List String) :=
  match cache with
  | some cached => (cached, some cached)
  | none => (_block_types_possibly_scored registry, some (_block_types_possibly_scored registry))

/-- Result and cache state of the n-th call (0-indexed) in a sequence of
memoized calls starting from an empty cache, over a fixed registry. -/
def nth_memoized_call (registry : List XBlockClassDecl) : Nat → List String × Option (List String)
  | 0 => memoized_call none registry
  | n + 1 => memoized_call (nth_memoized_call registry n).2 registry

/-- Every memoized call returns the value computed from the registry, with
the cache holding that same value. -/
theorem nth_memoized_call_eq (registry : List XBlockClassDecl) (n : Nat) :
    nth_memoized_call registry n =
      (_block_types_possibly_scored registry, some (_block_types_possibly_scored registry)) := by
  induction n with
  | zero => rfl
  | succ n ih =>
    unfold nth_memoized_call
    rw [ih]
    rfl

/-- C9: `possibly_scored` holds for exactly the block types whose registry
entry declares has-score or can-have-children, and the memoized result is
stable across repeated calls within one process: every call returns the
set computed once from the registry. -/
theorem possibly_scored_spec :
    (∀ (registry : List XBlockClassDecl) (block_type : String),
      possibly_scored registry block_type = true ↔
        ∃ c : XBlockClassDecl, c ∈ registry ∧ c.category = block_type ∧
          (c.has_score = true ∨ c.has_children = true)) ∧
    (∀ (registry : List XBlockClassDecl) (n : Nat),
      (nth_memoized_call registry n).1 = _block_types_possibly_scored registry) := by
  constructor
  · intro registry block_type
    unfold possibly_scored _block_types_possibly_scored
    simp only [List.contains_iff_exists_mem_beq, List.mem_map, List.mem_filter,
      beq_iff_eq, Bool.or_eq_true]
    constructor
    · rintro ⟨cat, ⟨c, ⟨hc, hflags⟩, hcat⟩, hbt⟩
      exact ⟨c, hc, by rw [hcat, ← hbt], hflags⟩
    · rintro ⟨c, hc, hcat, hflags⟩
      exact ⟨block_type, ⟨c, ⟨hc, hflags⟩, hcat⟩, rfl⟩
  · intro registry n
    rw [nth_memoized_call_eq]

/-! ## Subsection/course grade factories and persistence.

The factory and persistence code (`new/subsection_grade.py`,
`new/course_grade.py`, `models.py`) is not part of the provided source
slice — only its tests are — so the definitions below are modelled from
the spec (§3, §4.3, §4.4, §6). -/

/-- Modelled from the spec: the `SubsectionGrade` aggregate
(`subsection_grade.py` is missing from the slice); spec §3: url_name plus
the all-scores and graded-only (earned, possible) running totals. -/
structure SubsectionGrade where
  url_name : String
  all_total : ℚ × ℚ
  graded_total : ℚ × ℚ
  deriving DecidableEq

/-- Modelled from the spec: the durable `PersistedSubsectionGradeRecord`
(`models.py` is missing from the slice); spec §3. -/
structure PersistedSubsectionGradeRecord where
  user_id : Nat
  usage_key : String
  course_id : String
  earned_all : ℚ
  possible_all : ℚ
  earned_graded : ℚ
  possible_graded : ℚ
  block_records : List BlockRecord
  deriving DecidableEq

/-- Modelled from the spec: a subsection handle (url_name and usage key)
as supplied by the content-tree traversal. -/
structure Subsection where
  url_name : String
  usage_key : String
  deriving DecidableEq

/-- Modelled from the spec: `SubsectionGrade.init_from_structure` — a
grade built live from traversal + resolver; the two totals are the
aggregation outputs of the (out-of-scope) resolver pass. -/
def init_from_structure (subsection : Subsection) (all_total graded_total : ℚ × ℚ) :
    SubsectionGrade :=
  { url_name := subsection.url_name, all_total := all_total, graded_total := graded_total }

/-- Modelled from the spec: `SubsectionGrade.create_model` — serialize the
grade as a new durable record row. -/
def create_model (user_id : Nat) (course_id : String) (subsection : Subsection)
    (g : SubsectionGrade) (block_records : List BlockRecord) :
    PersistedSubsectionGradeRecord :=
  { user_id := user_id, usage_key := subsection.usage_key, course_id := course_id,
    earned_all := g.all_total.1, possible_all := g.all_total.2,
    earned_graded := g.graded_total.1, possible_graded := g.graded_total.2,
    block_records := block_records }

/-- Modelled from the spec: the durable store is append-only — each save
is a new row; earlier rows are superseded, not mutated. -/
def save_record (store : List PersistedSubsectionGradeRecord)
    (m : PersistedSubsectionGradeRecord) : List PersistedSubsectionGradeRecord :=
  store ++ [m]

/-- Modelled from the spec: `PersistentSubsectionGrade.read_grade` —
latest row wins on read for the (user, usage_key) pair. -/
def read_grade (store : List PersistedSubsectionGradeRecord) (user_id : Nat)
    (usage_key : String) : Option PersistedSubsectionGradeRecord :=
  (store.filter (fun r => r.user_id == user_id && r.usage_key == usage_key)).getLast?

/-- Modelled from the spec: `SubsectionGrade.init_from_model` — rehydrate
a grade from a persisted record plus the current traversal, which supplies
the subsection metadata such as its url_name. -/
def init_from_model (subsection : Subsection) (m : PersistedSubsectionGradeRecord) :
    SubsectionGrade :=
  { url_name := subsection.url_name, all_total := (m.earned_all, m.possible_all),
    graded_total := (m.earned_graded, m.possible_graded) }

/-- C8: save-then-load round trip — a freshly computed `SubsectionGrade`,
persisted as a new durable row and then rehydrated from the record the
store returns for (user, usage_key), has the same `url_name` and
`all_total` as the original, over any prior store contents. -/
theorem save_and_load_round_trip :
    ∀ (store : List PersistedSubsectionGradeRecord) (user_id : Nat) (course_id : String)
      (subsection : Subsection) (all_total graded_total : ℚ × ℚ)
      (block_records : List BlockRecord),
      ∃ m, read_grade
          (save_record store
            (create_model user_id course_id subsection
              (init_from_structure subsection all_total graded_total) block_records))
          user_id subsection.usage_key = some m ∧
        (init_from_model subsection m).url_name =
          (init_from_structure subsection all_total graded_total).url_name ∧
        (init_from_model subsection m).all_total =
          (init_from_structure subsection all_total graded_total).all_total := by
  intro store user_id course_id subsection all_total graded_total block_records
  refine ⟨create_model user_id course_id subsection
    (init_from_structure subsection all_total graded_total) block_records, ?_, rfl, rfl⟩
  unfold read_grade save_record
  rw [List.filter_append]
  have hm : (List.filter
      (fun r => r.user_id == user_id && r.usage_key == subsection.usage_key)
      [create_model user_id course_id subsection
        (init_from_structure subsection all_total graded_total) block_records]) =
      [create_model user_id course_id subsection
        (init_from_structure subsection all_total graded_total) block_records] := by
    simp [create_model]
  rw [hm, List.getLast?_concat]

/-- Modelled from the spec: the outcome a durable-store read can have — a
found record, no record, or a data-store failure (`DatabaseError`). -/
inductive StoreOutcome (α : Type) where
  | found : α → StoreOutcome α
  | notFound : StoreOutcome α
  | failure : StoreOutcome α
  deriving DecidableEq

/-- Modelled from the spec: the fallback warning — the fixed prefix
"Persistent Grades: Persistence Error, falling back." followed by further
detail, which the spec leaves unspecified. -/
def persistence_error_msg : String :=
  "Persistent Grades: Persistence Error, falling back. Grade not saved."

/-- Modelled from the spec: the collaborators of one
`SubsectionGradeFactory.create` call — the lookup outcome the durable
store would produce, whether a save attempt fails with a data-store
error, the live-computed grade (traversal + resolver, out of scope), and
rehydration from a found record. -/
structure FactoryEnv where
  lookup_outcome : StoreOutcome PersistedSubsectionGradeRecord
  save_fails : Bool
  computed : SubsectionGrade
  rehydrated : PersistedSubsectionGradeRecord → SubsectionGrade

/-- Modelled from the spec (§4.3, §6): persistence is enabled iff the
global feature flag is set AND the course-level override holds — itself
the "enabled for all courses" override OR the per-course setting. -/
def persistent_grades_enabled (global_flag for_all_courses for_course : Bool) : Bool :=
  global_flag && (for_all_courses || for_course)

/-- Modelled from the spec: the `SubsectionGradeFactory.create` state
machine — Lookup (only when persistence is enabled), Compute, Save,
Fallback.  Returns the grade handed to the caller, the warnings logged,
and whether the durable store was touched (read or write attempted).  A
data-store failure in Lookup or Save is caught, logged once, and the
freshly computed grade is returned. -/
def subsection_factory_create (global_flag for_all_courses for_course : Bool)
    (env : FactoryEnv) : SubsectionGrade × List String × Bool :=
  if persistent_grades_enabled global_flag for_all_courses for_course then
    match env.lookup_outcome with
    | .found r => (env.rehydrated r, [], true)
    | .notFound =>
      if env.save_fails then (env.computed, [persistence_error_msg], true)
      else (env.computed, [], true)
    | .failure => (env.computed, [persistence_error_msg], true)
  else (env.computed, [], false)

/-- Modelled from the spec: `bulk_create_unsaved` computes grades for many
subsections in one pass and batches the persistence write; a data-store
failure on the batched write is caught and logged once. -/
def bulk_create_unsaved (computed : List SubsectionGrade) (save_fails : Bool) :
    List SubsectionGrade × List String :=
  (computed, if save_fails then [persistence_error_msg] else [])

/-- Modelled from the spec (§4.4): whether `CourseGradeFactory.create`
persists the course-level aggregate — gated by the same two-level flag. -/
def course_grade_factory_saves (global_flag for_all_courses for_course : Bool) : Bool :=
  persistent_grades_enabled global_flag for_all_courses for_course

/-- C6: a data-store failure injected during either the per-block create
path (lookup failure, or save failure after a computed grade) or the
bulk-create path is swallowed: the caller still receives the freshly
computed grade, and exactly one warning is logged, beginning with the
fixed prefix "Persistent Grades: Persistence Error, falling back.". -/
theorem subsection_factory_fallback (global_flag for_all_courses for_course : Bool)
    (env : FactoryEnv) (computed_list : List SubsectionGrade)
    (hen : persistent_grades_enabled global_flag for_all_courses for_course = true) :
    (env.lookup_outcome = .failure ∨
        (env.lookup_outcome = .notFound ∧ env.save_fails = true) →
      subsection_factory_create global_flag for_all_courses for_course env =
        (env.computed, [persistence_error_msg], true)) ∧
    bulk_create_unsaved computed_list true = (computed_list, [persistence_error_msg]) ∧
    (∃ rest, persistence_error_msg =
      "Persistent Grades: Persistence Error, falling back." ++ rest) := by
  refine ⟨?_, rfl, ⟨" Grade not saved.", rfl⟩⟩
  intro hfail
  unfold subsection_factory_create
  rw [if_pos hen]
  rcases hfail with hlf | ⟨hnf, hsf⟩
  · rw [hlf]
  · rw [hnf]
    dsimp only
    rw [if_pos hsf]

/-- Sample grade for the factory witnesses. -/
def sample_grade : SubsectionGrade := ⟨"Test Sequential 1", (1, 2), (1, 2)⟩

/-- Factory environment whose durable-store lookup fails. -/
def failing_lookup_env : FactoryEnv := ⟨.failure, false, sample_grade, fun _ => sample_grade⟩

/-- C6 witness: with persistence enabled and a failing lookup, `create`
still returns the computed grade with the single prefixed warning; the
bulk path behaves the same on a failing batched save. -/
theorem subsection_factory_fallback_witness :
    subsection_factory_create true false true failing_lookup_env =
      (sample_grade, [persistence_error_msg], true) ∧
    bulk_create_unsaved [sample_grade] true = ([sample_grade], [persistence_error_msg]) := by
  have h := subsection_factory_fallback true false true failing_lookup_env [sample_grade] rfl
  exact ⟨h.1 (Or.inl rfl), h.2.1⟩

/-- C7: across all four combinations of the global feature flag and the
per-course setting (with the all-courses override off), the durable store
is touched during grade creation iff both are true; when either is false
the grade is still computed (and equals the live-computed grade when no
record is found) but nothing is durably read or written; the course-level
factory saves under exactly the same gate. -/
theorem persistence_double_gate :
    ∀ (global_flag course_setting : Bool) (env : FactoryEnv),
      ((subsection_factory_create global_flag false course_setting env).2.2 = true ↔
        (global_flag = true ∧ course_setting = true)) ∧
      (course_grade_factory_saves global_flag false course_setting =
        (global_flag && course_setting)) := by
  intro g c env
  obtain ⟨lo, sf, cg, rh⟩ := env
  cases g <;> cases c <;> cases lo <;> cases sf <;>
    simp [subsection_factory_create, persistent_grades_enabled, course_grade_factory_saves]
